import Mathlib

set_option maxRecDepth 40000

/-!
Verification development for the CSV-to-SQL importer
(`ImportOlxHousePrice.py`).

The core pipeline is embedded shallowly:
  - Python strings are modelled as `List Char` (ASCII-faithful; the
    Unicode-specific behaviour of `str.strip` and of numeric parsing on
    non-ASCII digits is outside the model).
  - Python float values are modelled exactly: a finite value is an exact
    decimal `num * 10 ^ exp` (no IEEE-754 rounding), plus the special
    values `inf`, `neginf`, `nan`.  Decimal literals whose exact value
    reaches the IEEE-754 double overflow threshold `2^1024 - 2^970`
    parse to an infinity, as CPython's `float` does; rounding of
    in-range literals and underflow to zero are not modelled (values
    are kept exact).
  - Fallible conversions return `PyResult`: a typed value, `nul`
    (Python `None`), or `exn msg` (an exception escaping to the
    caller).
-/

namespace OlxImport

/-- Python strings are modelled as lists of characters. -/
abbrev Str := List Char

/-- The ASCII whitespace characters stripped by Python's `str.strip()`:
space, tab, newline, carriage return, vertical tab, form feed. -/
def isPySpace (c : Char) : Bool :=
  c = ' ' || c = '\t' || c = '\n' || c = '\r' || c = Char.ofNat 11 || c = Char.ofNat 12

/-- Model of Python `str.strip()`: remove leading and trailing whitespace. -/
def pyStrip (l : Str) : Str :=
  ((l.dropWhile isPySpace).reverse.dropWhile isPySpace).reverse

/-- Model of `value.replace(",", ".")` (source line 52/69/84): every comma
becomes a period. -/
def commaToPeriod (l : Str) : Str :=
  l.map (fun c => if c = ',' then '.' else c)

/-- A Python float value, modelled exactly: `finite num exp` denotes the
real number `num * 10 ^ exp` (not rounded to an IEEE-754 double), and the
three special values. -/
inductive PyFloat where
  | finite (num : Int) (exp : Int)
  | inf
  | neginf
  | nan
deriving DecidableEq, Repr

/-- The exact rational denoted by a finite float representation
`num * 10 ^ exp`.  Used only in specification statements. -/
def finVal (num exp : Int) : ℚ :=
  (num : ℚ) * (10 : ℚ) ^ exp

/-- Digit run with Python underscore grouping, continuation after a digit:
either the run ends, continues with a digit, or has a single underscore
followed by a digit. -/
def udRest : Str → Bool
  | [] => true
  | '_' :: c :: rest => c.isDigit && udRest rest
  | c :: rest => c.isDigit && udRest rest

/-- A valid (nonempty) digit run in Python numeric literal syntax:
digits, with single underscores allowed only between digits. -/
def okUDigits : Str → Bool
  | [] => false
  | c :: rest => c.isDigit && udRest rest

/-- Numeric value of a digit run (underscores removed before folding). -/
def digitsVal (l : Str) : Nat :=
  (l.filter (fun c => c ≠ '_')).foldl (fun acc c => 10 * acc + (c.toNat - ('0').toNat)) 0

/-- Number of actual digits in a digit run (underscores not counted). -/
def digitsLen (l : Str) : Nat :=
  (l.filter (fun c => c ≠ '_')).length

/-- Split at the first exponent marker `e`/`E`, if any. -/
def splitOnExp : Str → Str × Option Str
  | [] => ([], none)
  | c :: cs =>
    if c = 'e' || c = 'E' then ([], some cs)
    else
      let r := splitOnExp cs
      (c :: r.1, r.2)

/-- Split at the first period, if any. -/
def splitOnDot : Str → Str × Option Str
  | [] => ([], none)
  | c :: cs =>
    if c = '.' then ([], some cs)
    else
      let r := splitOnDot cs
      (c :: r.1, r.2)

/-- Consume one optional leading sign; returns (isNegative, rest). -/
def parseSign : Str → Bool × Str
  | '+' :: rest => (false, rest)
  | '-' :: rest => (true, rest)
  | l => (false, l)

/-- Mantissa of a float literal (no sign, no exponent): either a digit
run, or `ip.fp` where each side may be empty but not both.  Returns the
exact value as a scaled pair (numerator, number of fractional digits). -/
def parseMantissa (l : Str) : Option (Nat × Nat) :=
  match splitOnDot l with
  | (ip, none) => if okUDigits ip then some (digitsVal ip, 0) else none
  | (ip, some fp) =>
    if (ip = [] || okUDigits ip) && (fp = [] || okUDigits fp) && !(ip = [] && fp = []) then
      some (digitsVal ip * 10 ^ digitsLen fp + digitsVal fp, digitsLen fp)
    else none

/-- Exponent part of a float literal: optional sign then a digit run. -/
def parseExp (l : Str) : Option Int :=
  let s := parseSign l
  if okUDigits s.2 then
    some (if s.1 then -(digitsVal s.2 : Int) else (digitsVal s.2 : Int))
  else none

/-- An unsigned float literal `mantissa [e exponent]`, as an exact scaled
decimal (numerator, decimal exponent). -/
def parseNumber (l : Str) : Option (Nat × Int) :=
  match splitOnExp l with
  | (m, none) => (parseMantissa m).map (fun p => (p.1, -(p.2 : Int)))
  | (m, some e) =>
    match parseMantissa m, parseExp e with
    | some p, some ex => some (p.1, ex - (p.2 : Int))
    | _, _ => none

/-- ASCII lower-casing, for the case-insensitive `inf`/`nan` keywords. -/
def lowerAscii (c : Char) : Char :=
  if 'A' ≤ c && c ≤ 'Z' then Char.ofNat (c.toNat + 32) else c

/-- The IEEE-754 double overflow threshold: an exact decimal whose
magnitude reaches `2^1024 - 2^970` (the midpoint above the largest
finite double, which rounds up to `2^1024`) parses to an infinity. -/
def overflowsDouble (num : Nat) (exp : Int) : Bool :=
  if 0 ≤ exp then (2 ^ 1024 - 2 ^ 970 : Nat) ≤ num * 10 ^ exp.toNat
  else (2 ^ 1024 - 2 ^ 970 : Nat) * 10 ^ (-exp).toNat ≤ num

/-- Model of CPython's `float(str)` on ASCII input: strip whitespace,
optional sign, then case-insensitively `inf`/`infinity`/`nan` or a
decimal literal (digit runs may use underscore grouping).  `none` models
`ValueError`. -/
def pyfloat (l : Str) : Option PyFloat :=
  let t := pyStrip l
  let s := parseSign t
  let low := s.2.map lowerAscii
  if low = ("inf").toList || low = ("infinity").toList then
    some (if s.1 then PyFloat.neginf else PyFloat.inf)
  else if low = ("nan").toList then
    some PyFloat.nan
  else
    match parseNumber s.2 with
    | some p =>
      if overflowsDouble p.1 p.2 then
        some (if s.1 then PyFloat.neginf else PyFloat.inf)
      else
        some (PyFloat.finite (if s.1 then -(p.1 : Int) else (p.1 : Int)) p.2)
    | none => none

/-- Model of Python `int(f)` on a finite float `num * 10 ^ exp`:
truncation toward zero (`Int.tdiv` is t-division). -/
def floatTrunc (num exp : Int) : Int :=
  if 0 ≤ exp then num * 10 ^ exp.toNat else Int.tdiv num (10 ^ (-exp).toNat)

/-- Result of a fallible Python conversion: a typed value, `None`, or an
exception escaping to the caller (with the Python message text). -/
inductive PyResult (α : Type) where
  | val (a : α)
  | nul
  | exn (msg : Str)
deriving DecidableEq, Repr

/-- True when the result is a typed value. -/
def PyResult.isVal {α : Type} : PyResult α → Bool
  | .val _ => true
  | _ => false

/-- True when the result is an escaping exception. -/
def PyResult.isExn {α : Type} : PyResult α → Bool
  | .exn _ => true
  | _ => false

/-- Message of the `OverflowError` raised by `int(f)` on infinite `f`;
`str(e)` yields the bare message. -/
def infMsg : Str :=
  ("cannot convert float infinity to integer").toList

/-- Embedding of `_parse_float` (source lines 41-55): empty or
whitespace-only input gives `None`, otherwise commas are replaced by
periods and the result parsed by `float`; a `ValueError` is caught and
gives `None`.  This converter never lets an exception escape. -/
def _parse_float (value : Str) : PyResult PyFloat :=
  if value = [] then .nul
  else
    let v := pyStrip value
    if v = [] then .nul
    else
      match pyfloat (commaToPeriod v) with
      | some f => .val f
      | none => .nul

/-- Embedding of `_parse_int` (source lines 58-71): normalize like the
float converter, then `int(float(...))`.  A parse `ValueError` and the
`ValueError` from `int(nan)` are caught (giving `None`), but the
`OverflowError` from `int(±inf)` is not in the `except` clause and
escapes. -/
def _parse_int (value : Str) : PyResult Int :=
  if value = [] then .nul
  else
    let v := pyStrip value
    if v = [] then .nul
    else
      match pyfloat (commaToPeriod v) with
      | some (.finite n e) => .val (floatTrunc n e)
      | some .nan => .nul
      | some .inf => .exn infMsg
      | some .neginf => .exn infMsg
      | none => .nul

/-- Embedding of `_parse_tinyint` (source lines 74-89): the integer
conversion of `_parse_int`, then the bound check `0 <= int_val <= 255`,
returning `None` when out of range. -/
def _parse_tinyint (value : Str) : PyResult Int :=
  if value = [] then .nul
  else
    let v := pyStrip value
    if v = [] then .nul
    else
      match pyfloat (commaToPeriod v) with
      | some (.finite n e) =>
        let int_val := floatTrunc n e
        if 0 ≤ int_val ∧ int_val ≤ 255 then .val int_val else .nul
      | some .nan => .nul
      | some .inf => .exn infMsg
      | some .neginf => .exn infMsg
      | none => .nul

/-- Embedding of the string-column converter `lambda x: x[:50] if x else
None` (source lines 23, 27-31): `None` on empty input, else the first
`maxLen` characters.  It does not strip: its argument was already
stripped by the row validator. -/
def strTrunc (maxLen : Nat) (x : Str) : PyResult Str :=
  if x = [] then .nul else .val (x.take maxLen)

/-- A typed scalar as stored in a converted row. -/
inductive PyValue where
  | vFloat (f : PyFloat)
  | vInt (n : Int)
  | vStr (s : Str)
deriving DecidableEq, Repr

/-- Tag for the converter assigned to a column in `COLUMN_DEFS`. -/
inductive ColType where
  | float
  | tinyint
  | int
  | str (maxLen : Nat)
deriving DecidableEq, Repr

/-- Dispatch a column's converter (the lambdas of `COLUMN_DEFS`). -/
def runConverter : ColType → Str → PyResult PyValue
  | .float, x =>
    match _parse_float x with
    | .val f => .val (.vFloat f)
    | .nul => .nul
    | .exn m => .exn m
  | .tinyint, x =>
    match _parse_tinyint x with
    | .val n => .val (.vInt n)
    | .nul => .nul
    | .exn m => .exn m
  | .int, x =>
    match _parse_int x with
    | .val n => .val (.vInt n)
    | .nul => .nul
    | .exn m => .exn m
  | .str n, x =>
    match strTrunc n x with
    | .val s => .val (.vStr s)
    | .nul => .nul
    | .exn m => .exn m

/-- One entry of `COLUMN_DEFS` (source lines 20-36): column name, SQL
type text, nullability flag (configuration only — the validation logic
never reads it), and converter tag. -/
structure ColDef where
  name : Str
  sql_type : Str
  nullable : Bool
  conv : ColType
deriving DecidableEq, Repr

/-- The 15 column definitions, in source (insertion) order. -/
def COLUMN_DEFS : List ColDef :=
  [ ⟨("price").toList, ("float").toList, false, .float⟩
  , ⟨("price_per_meter").toList, ("float").toList, false, .float⟩
  , ⟨("offer_type").toList, ("nvarchar(50)").toList, false, .str 50⟩
  , ⟨("floor").toList, ("tinyint").toList, true, .tinyint⟩
  , ⟨("area").toList, ("float").toList, true, .float⟩
  , ⟨("rooms").toList, ("tinyint").toList, false, .tinyint⟩
  , ⟨("offer_type_of_building").toList, ("nvarchar(50)").toList, true, .str 50⟩
  , ⟨("market").toList, ("nvarchar(50)").toList, false, .str 50⟩
  , ⟨("city_name").toList, ("nvarchar(50)").toList, false, .str 50⟩
  , ⟨("voivodeship").toList, ("nvarchar(50)").toList, false, .str 50⟩
  , ⟨("month").toList, ("nvarchar(50)").toList, false, .str 50⟩
  , ⟨("year").toList, ("smallint").toList, false, .int⟩
  , ⟨("population").toList, ("int").toList, false, .int⟩
  , ⟨("longitude").toList, ("float").toList, false, .float⟩
  , ⟨("latitude").toList, ("float").toList, false, .float⟩ ]

/-- The 11 required field names (source line 38), in source order. -/
def REQUIRED_FIELDS : List Str :=
  [ ("price").toList, ("price_per_meter").toList, ("rooms").toList
  , ("year").toList, ("population").toList, ("longitude").toList
  , ("latitude").toList, ("offer_type").toList, ("market").toList
  , ("city_name").toList, ("voivodeship").toList ]

/-- A raw CSV record: association list from column name to cell text
(a missing key models a column absent from the file). -/
abbrev RawRecord := List (Str × Str)

/-- Lookup of a key in a raw record (Python `col_name in row` +
`row.get(col_name)`). -/
def rowGet (row : RawRecord) (k : Str) : Option Str :=
  (row.find? (fun p => p.1 = k)).map (fun p => p.2)

/-- Source line 116: the raw value the validator works with — the
stripped cell when the column is present, else the empty string. -/
def colRaw (row : RawRecord) (k : Str) : Str :=
  match rowGet row k with
  | some v => pyStrip v
  | none => []

/-- The converter application of source line 121 for one column. -/
def colConv (row : RawRecord) (cd : ColDef) : PyResult PyValue :=
  runConverter cd.conv (colRaw row cd.name)

/-- The value stored into the converted record for one column
(`None` both when the converter returned `None` and when it raised). -/
def colValue (row : RawRecord) (cd : ColDef) : Option PyValue :=
  match colConv row cd with
  | .val v => some v
  | _ => none

/-- The single-quote character, used in the error-message template. -/
def sq : Char := Char.ofNat 39

/-- Error message of source line 124 for a converter exception. -/
def excErrMsg (name : Str) (m : Str) : Str :=
  ("  ").toList ++ name ++ (": ").toList ++ m

/-- Error message of source line 129 for a required field without a
value. -/
def missingErrMsg (name raw : Str) : Str :=
  ("  ").toList ++ name ++ (": Missing or invalid (raw value: ").toList
    ++ [sq] ++ raw ++ [sq, ')']

/-- The error messages one column contributes, in source order: first
the exception message (if the converter raised, source lines 122-124),
then the missing-required-value message (source lines 127-129). -/
def colErrors (row : RawRecord) (cd : ColDef) : List Str :=
  (match colConv row cd with
   | .exn m => [excErrMsg cd.name m]
   | _ => [])
  ++ (if cd.name ∈ REQUIRED_FIELDS ∧ colValue row cd = none then
        [missingErrMsg cd.name (colRaw row cd.name)]
      else [])

/-- All error messages of a row, in column order. -/
def rowErrors (row : RawRecord) : List Str :=
  COLUMN_DEFS.flatMap (colErrors row)

/-- Join a list of messages with newlines (Python `"\n".join`). -/
def joinLines : List Str → Str
  | [] => []
  | [m] => m
  | m :: rest => m ++ '\n' :: joinLines rest

/-- Result tuple of `validate_and_convert_row` (source line 136):
converted record, validity flag, optional joined error message, and the
recorded raw values. -/
structure ValidationOut where
  converted : List (Str × Option PyValue)
  is_valid : Bool
  error_msg : Option Str
  raw_values : List (Str × Str)
deriving DecidableEq, Repr

/-- Embedding of `validate_and_convert_row` (source lines 109-136).  The
`row_num` argument is unused, as in the source. -/
def validate_and_convert_row (row_num : Nat) (row : RawRecord) : ValidationOut :=
  { converted := COLUMN_DEFS.map (fun cd => (cd.name, colValue row cd))
  , is_valid := (rowErrors row).isEmpty
  , error_msg := if rowErrors row = [] then none else some (joinLines (rowErrors row))
  , raw_values := COLUMN_DEFS.map (fun cd => (cd.name, colRaw row cd.name)) }

/-- One retained sample of a rejected row (source lines 152-157). -/
structure RejectSample where
  row : Nat
  errors : Option Str
  raw_values : List (Str × Str)
deriving DecidableEq, Repr

/-- The sample recorded for an invalid row. -/
def mkSample (row_num : Nat) (row : RawRecord) : RejectSample :=
  let v := validate_and_convert_row row_num row
  ⟨row_num, v.error_msg, v.raw_values⟩

/-- State of the batch loader `insert_rows`: the two counters, the
bounded sample list, and the sequence of rows handed successfully to the
database sink, in order. -/
structure ImportState where
  inserted : Nat
  rejected : Nat
  rejected_samples : List RejectSample
  sink : List (Nat × List (Str × Option PyValue))
deriving DecidableEq, Repr

/-- One iteration of the loop of `insert_rows` (source lines 147-192).
`sinkOk idx` tells whether `cursor.execute` succeeds for the row at
0-based input position `idx` (a failing execute is caught, counted as
rejected, and reported inline without being sampled). -/
def insertStep (sinkOk : Nat → Bool) (idx : Nat) (st : ImportState)
    (entry : Nat × RawRecord) : ImportState :=
  let v := validate_and_convert_row entry.1 entry.2
  if v.is_valid then
    if sinkOk idx then
      { st with inserted := st.inserted + 1
              , sink := st.sink ++ [(entry.1, v.converted)] }
    else
      { st with rejected := st.rejected + 1 }
  else
    { st with rejected := st.rejected + 1
            , rejected_samples :=
                if st.rejected_samples.length < 20 then
                  st.rejected_samples ++ [mkSample entry.1 entry.2]
                else st.rejected_samples }

/-- Tail of the loop of `insert_rows`, from position `idx` and state
`st`. -/
def insert_rowsAux (sinkOk : Nat → Bool) : List (Nat × RawRecord) → Nat → ImportState → ImportState
  | [], _, st => st
  | e :: rest, idx, st => insert_rowsAux sinkOk rest (idx + 1) (insertStep sinkOk idx st e)

/-- Embedding of `insert_rows` (source lines 139-199): fold the per-row
state machine over the whole batch, starting from zero counters. -/
def insert_rows (sinkOk : Nat → Bool) (rows : List (Nat × RawRecord)) : ImportState :=
  insert_rowsAux sinkOk rows 0 ⟨0, 0, [], []⟩

/-- The reject samples a batch generates, before the 20-sample cap:
one per validation-rejected row, in input order (sink-failure rejections
are never sampled). -/
def rejectSamples (rows : List (Nat × RawRecord)) : List RejectSample :=
  rows.filterMap (fun e =>
    if (validate_and_convert_row e.1 e.2).is_valid then none
    else some (mkSample e.1 e.2))

/-! Helper lemmas about stripping and comma normalization. -/

lemma dropWhile_idem (p : Char → Bool) (l : List Char) :
    (l.dropWhile p).dropWhile p = l.dropWhile p := by
  induction l with
  | nil => rfl
  | cons c t ih =>
    by_cases h : p c
    · simp only [List.dropWhile_cons, h, if_true, ih]
    · simp only [List.dropWhile_cons, h, if_false, Bool.false_eq_true]

lemma dropWhile_fixed_head (p : Char → Bool) (c : Char) (t : List Char)
    (h : (c :: t).dropWhile p = c :: t) : p c = false := by
  by_contra hc
  rw [Bool.not_eq_false] at hc
  rw [List.dropWhile_cons, if_pos hc] at h
  have hlen : (t.dropWhile p).length ≤ t.length :=
    (List.dropWhile_suffix p).length_le
  rw [h] at hlen
  simp at hlen

lemma pyStrip_nil : pyStrip ([] : Str) = [] := rfl

lemma pyStrip_idem (l : Str) : pyStrip (pyStrip l) = pyStrip l := by
  have hm : (l.dropWhile isPySpace).dropWhile isPySpace = l.dropWhile isPySpace :=
    dropWhile_idem isPySpace l
  set m := l.dropWhile isPySpace with hm_def
  set s := m.reverse.dropWhile isPySpace with hs_def
  have hs : s.dropWhile isPySpace = s := dropWhile_idem isPySpace m.reverse
  have hstrip : pyStrip l = s.reverse := rfl
  have hpref : s.reverse <+: m := by
    have h1 : s <:+ m.reverse := List.dropWhile_suffix isPySpace
    have h2 := h1.reverse
    rwa [List.reverse_reverse] at h2
  have hfix : s.reverse.dropWhile isPySpace = s.reverse := by
    cases hsr : s.reverse with
    | nil => rfl
    | cons c r' =>
      rcases hpref with ⟨t, ht⟩
      rw [hsr] at ht
      have hmct : m = c :: (r' ++ t) := by
        rw [← ht]; rfl
      have hc : isPySpace c = false := by
        apply dropWhile_fixed_head isPySpace c (r' ++ t)
        rw [← hmct]; exact hm
      rw [List.dropWhile_cons, if_neg]
      simp [hc]
  rw [hstrip]
  show ((s.reverse.dropWhile isPySpace).reverse.dropWhile isPySpace).reverse = s.reverse
  rw [hfix, List.reverse_reverse, hs]

lemma pyStrip_eq_nil_of_space (l : Str) (h : ∀ c ∈ l, isPySpace c = true) :
    pyStrip l = [] := by
  unfold pyStrip
  rw [List.dropWhile_eq_nil_iff.mpr h]
  rfl

lemma commaToPeriod_nil_iff (l : Str) : commaToPeriod l = [] ↔ l = [] := by
  unfold commaToPeriod
  constructor
  · intro h
    cases l with
    | nil => rfl
    | cons c t => simp at h
  · intro h; rw [h]; rfl

lemma commaToPeriod_idem (l : Str) :
    commaToPeriod (commaToPeriod l) = commaToPeriod l := by
  unfold commaToPeriod
  rw [List.map_map]
  apply List.map_congr_left
  intro c _
  by_cases h : c = ','
  · simp [h]
  · simp [h]

lemma isPySpace_commaChar (c : Char) :
    isPySpace (if c = ',' then '.' else c) = isPySpace c := by
  by_cases h : c = ','
  · rw [if_pos h, h]; decide
  · rw [if_neg h]

lemma pyStrip_commaToPeriod (l : Str) :
    pyStrip (commaToPeriod l) = commaToPeriod (pyStrip l) := by
  have hfun : (isPySpace ∘ fun c => if c = ',' then '.' else c) = isPySpace :=
    funext (fun c => isPySpace_commaChar c)
  unfold pyStrip commaToPeriod
  rw [List.dropWhile_map, hfun, ← List.map_reverse, List.dropWhile_map, hfun,
    ← List.map_reverse]

/-! Helper lemmas about the batch loader and the row validator. -/

lemma insert_rowsAux_counts (sinkOk : Nat → Bool) (rows : List (Nat × RawRecord)) :
    ∀ (idx : Nat) (st : ImportState),
      (insert_rowsAux sinkOk rows idx st).inserted
        + (insert_rowsAux sinkOk rows idx st).rejected
      = st.inserted + st.rejected + rows.length := by
  induction rows with
  | nil => intro idx st; simp [insert_rowsAux]
  | cons e rest ih =>
    intro idx st
    rw [insert_rowsAux, ih]
    unfold insertStep
    cases hv : (validate_and_convert_row e.1 e.2).is_valid with
    | true =>
      cases hs : sinkOk idx with
      | true => simp only [hv, hs, if_true, List.length_cons]; omega
      | false => simp only [hv, hs, if_true, Bool.false_eq_true, if_false, List.length_cons]; omega
    | false =>
      simp only [hv, Bool.false_eq_true, if_false, List.length_cons]
      omega

lemma insert_rowsAux_samples (sinkOk : Nat → Bool) (rows : List (Nat × RawRecord)) :
    ∀ (idx : Nat) (st : ImportState),
      (insert_rowsAux sinkOk rows idx st).rejected_samples
      = st.rejected_samples
          ++ (rejectSamples rows).take (20 - st.rejected_samples.length) := by
  induction rows with
  | nil => intro idx st; simp [insert_rowsAux, rejectSamples]
  | cons e rest ih =>
    intro idx st
    rw [insert_rowsAux, ih]
    unfold insertStep rejectSamples
    cases hv : (validate_and_convert_row e.1 e.2).is_valid with
    | true =>
      cases hs : sinkOk idx with
      | true => simp [hv]
      | false => simp [hv]
    | false =>
      simp only [Bool.false_eq_true, if_false, List.filterMap_cons, hv]
      by_cases hlen : st.rejected_samples.length < 20
      · rw [if_pos hlen]
        obtain ⟨k, hk1, hk2⟩ : ∃ k, 20 - st.rejected_samples.length = k + 1
            ∧ 20 - (st.rejected_samples ++ [mkSample e.1 e.2]).length = k := by
          rw [List.length_append]
          refine ⟨20 - st.rejected_samples.length - 1, by omega, by simp; omega⟩
        rw [hk2, hk1, List.take_succ_cons, List.append_assoc]
        rfl
      · rw [if_neg hlen]
        have h0 : 20 - st.rejected_samples.length = 0 := by omega
        rw [h0]
        simp

lemma insert_rowsAux_sink (sinkOk : Nat → Bool) (rows : List (Nat × RawRecord)) :
    ∀ (idx : Nat) (st : ImportState),
      ∃ tail, (insert_rowsAux sinkOk rows idx st).sink = st.sink ++ tail := by
  induction rows with
  | nil => intro idx st; exact ⟨[], by simp [insert_rowsAux]⟩
  | cons e rest ih =>
    intro idx st
    rw [insert_rowsAux]
    obtain ⟨tail, ht⟩ := ih (idx + 1) (insertStep sinkOk idx st e)
    rw [ht]
    unfold insertStep
    cases hv : (validate_and_convert_row e.1 e.2).is_valid with
    | true =>
      cases hs : sinkOk idx with
      | true =>
        exact ⟨(e.1, (validate_and_convert_row e.1 e.2).converted) :: tail, by
          simp [hv, List.append_assoc]⟩
      | false => exact ⟨tail, by simp [hv]⟩
    | false => exact ⟨tail, by simp [hv]⟩

lemma colErrors_eq_nil_iff (row : RawRecord) (cd : ColDef) :
    colErrors row cd = []
      ↔ ((colConv row cd).isExn = false
          ∧ (cd.name ∈ REQUIRED_FIELDS → (colConv row cd).isVal = true)) := by
  unfold colErrors colValue
  cases h : colConv row cd with
  | val a =>
    simp [PyResult.isExn, PyResult.isVal]
  | nul =>
    by_cases hreq : cd.name ∈ REQUIRED_FIELDS
    · simp [PyResult.isExn, PyResult.isVal, hreq]
    · simp [PyResult.isExn, PyResult.isVal, hreq]
  | exn m =>
    simp [PyResult.isExn]

lemma is_valid_iff (row_num : Nat) (row : RawRecord) :
    (validate_and_convert_row row_num row).is_valid = true
      ↔ ∀ cd ∈ COLUMN_DEFS,
          (colConv row cd).isExn = false
          ∧ (cd.name ∈ REQUIRED_FIELDS → (colConv row cd).isVal = true) := by
  show (rowErrors row).isEmpty = true ↔ _
  rw [List.isEmpty_iff]
  unfold rowErrors
  rw [List.flatMap_eq_nil_iff]
  constructor
  · intro h cd hcd
    exact (colErrors_eq_nil_iff row cd).mp (h cd hcd)
  · intro h cd hcd
    exact (colErrors_eq_nil_iff row cd).mpr (h cd hcd)

lemma raw_values_stripped (row_num : Nat) (row : RawRecord) :
    ∀ p ∈ (validate_and_convert_row row_num row).raw_values, pyStrip p.2 = p.2 := by
  intro p hp
  show pyStrip p.2 = p.2
  have : p ∈ COLUMN_DEFS.map (fun cd => (cd.name, colRaw row cd.name)) := hp
  rw [List.mem_map] at this
  obtain ⟨cd, _, hcd⟩ := this
  rw [← hcd]
  show pyStrip (colRaw row cd.name) = colRaw row cd.name
  unfold colRaw
  cases rowGet row cd.name with
  | none => rfl
  | some v => exact pyStrip_idem v

/-- Whether the normalized, stripped input parses to an infinite float —
exactly the inputs on which `int(float(...))` raises `OverflowError`. -/
def parsesToInf (s : Str) : Bool :=
  match pyfloat (commaToPeriod (pyStrip s)) with
  | some .inf => true
  | some .neginf => true
  | _ => false

lemma pyfloat_nil : pyfloat ([] : Str) = none := by decide

/-- Truncation toward zero: `floatTrunc` is the floor of the exact value
for a nonnegative numerator and its ceiling for a nonpositive one. -/
lemma floatTrunc_eq_floor_ceil (n e : Int) :
    floatTrunc n e = if 0 ≤ n then ⌊finVal n e⌋ else ⌈finVal n e⌉ := by
  unfold floatTrunc finVal
  by_cases he : 0 ≤ e
  · rw [if_pos he]
    have h10 : (10 : ℚ) ^ e = ((10 ^ e.toNat : Int) : ℚ) := by
      conv_lhs => rw [← Int.toNat_of_nonneg he]
      rw [zpow_natCast]
      push_cast
      ring
    have hcast : (n : ℚ) * (10 : ℚ) ^ e = ((n * 10 ^ e.toNat : Int) : ℚ) := by
      rw [h10]
      push_cast
      ring
    rw [hcast, Int.floor_intCast, Int.ceil_intCast, ite_self]
  · rw [if_neg he]
    set k := (-e).toNat with hk
    have hek : e = -(k : Int) := by omega
    have hval : (n : ℚ) * (10 : ℚ) ^ e = (n : ℚ) / ((10 ^ k : Nat) : ℚ) := by
      rw [hek, zpow_neg, zpow_natCast]
      push_cast
      ring
    rw [hval]
    by_cases hn : 0 ≤ n
    · rw [if_pos hn, Rat.floor_intCast_div_natCast]
      rw [Int.tdiv_eq_ediv hn (by positivity)]
      norm_num
    · rw [if_neg hn]
      have h1 : Int.tdiv n (10 ^ k) = -Int.tdiv (-n) (10 ^ k) := by
        rw [Int.neg_tdiv, neg_neg]
      rw [h1, Int.tdiv_eq_ediv (by omega) (by positivity)]
      have h2 : ⌈(n : ℚ) / ((10 ^ k : Nat) : ℚ)⌉ = -⌊((-n : Int) : ℚ) / ((10 ^ k : Nat) : ℚ)⌋ := by
        have h3 : ((-n : Int) : ℚ) / ((10 ^ k : Nat) : ℚ) = -((n : ℚ) / ((10 ^ k : Nat) : ℚ)) := by
          push_cast
          ring
        rw [h3, Int.floor_neg, neg_neg]
      rw [h2, Rat.floor_intCast_div_natCast]
      norm_num

lemma strTruncExn (n : Nat) (x : Str) : (strTrunc n x).isExn = false := by
  unfold strTrunc
  split
  · rfl
  · rfl

lemma parse_floatExn (s : Str) : (_parse_float s).isExn = false := by
  simp only [_parse_float]
  split
  · rfl
  · split
    · rfl
    · split
      · rfl
      · rfl

lemma parse_intExn (s : Str) : (_parse_int s).isExn = parsesToInf s := by
  simp only [_parse_int, parsesToInf]
  by_cases h1 : s = []
  · subst h1
    rw [if_pos rfl, show commaToPeriod (pyStrip ([] : Str)) = [] from rfl, pyfloat_nil]
    rfl
  · rw [if_neg h1]
    by_cases h2 : pyStrip s = []
    · rw [h2, if_pos rfl, show commaToPeriod ([] : Str) = [] from rfl, pyfloat_nil]
      rfl
    · rw [if_neg h2]
      cases hm : pyfloat (commaToPeriod (pyStrip s)) with
      | none => rfl
      | some f => cases f <;> rfl

lemma parse_tinyintExn (s : Str) : (_parse_tinyint s).isExn = parsesToInf s := by
  simp only [_parse_tinyint, parsesToInf]
  by_cases h1 : s = []
  · subst h1
    rw [if_pos rfl, show commaToPeriod (pyStrip ([] : Str)) = [] from rfl, pyfloat_nil]
    rfl
  · rw [if_neg h1]
    by_cases h2 : pyStrip s = []
    · rw [h2, if_pos rfl, show commaToPeriod ([] : Str) = [] from rfl, pyfloat_nil]
      rfl
    · rw [if_neg h2]
      cases hm : pyfloat (commaToPeriod (pyStrip s)) with
      | none => rfl
      | some f =>
        cases f with
        | finite num exp =>
          by_cases hle : 0 ≤ floatTrunc num exp ∧ floatTrunc num exp ≤ 255
          · simp only [if_pos hle]; rfl
          · simp only [if_neg hle]; rfl
        | inf => rfl
        | neginf => rfl
        | nan => rfl

/-! Concrete records used as witnesses and counterexamples. -/

/-- A record whose every column converts successfully. -/
def rowValid : RawRecord :=
  [ (("price").toList, ("100000").toList)
  , (("price_per_meter").toList, ("5000").toList)
  , (("offer_type").toList, ("sale").toList)
  , (("floor").toList, ("2").toList)
  , (("area").toList, ("50.5").toList)
  , (("rooms").toList, ("3").toList)
  , (("offer_type_of_building").toList, ("block").toList)
  , (("market").toList, ("primary").toList)
  , (("city_name").toList, ("Krakow").toList)
  , (("voivodeship").toList, ("ML").toList)
  , (("month").toList, ("Jan").toList)
  , (("year").toList, ("2022").toList)
  , (("population").toList, ("760000").toList)
  , (("longitude").toList, ("19.9").toList)
  , (("latitude").toList, ("50.06").toList) ]

/-- The same record with the non-required `floor` column set to `inf`,
which makes `_parse_tinyint` raise an `OverflowError`. -/
def rowInfFloor : RawRecord :=
  rowValid.map (fun p => if p.1 = ("floor").toList then (p.1, ("inf").toList) else p)

/-- A one-column record whose `price` cell carries surrounding
whitespace. -/
def rowWs : RawRecord :=
  [ (("price").toList, ("  12  ").toList) ]

end OlxImport


/-! The claims. -/

namespace OlxImport

/-- C1: after a complete run of the batch loader over any input batch,
every row has been counted as inserted or as rejected exactly once, so
the inserted count plus the rejected count equals the number of input
rows. -/
theorem claim_C1_counts_sum (sinkOk : Nat → Bool) (rows : List (Nat × RawRecord)) :
    (insert_rows sinkOk rows).inserted + (insert_rows sinkOk rows).rejected
      = rows.length := by
  unfold insert_rows
  rw [insert_rowsAux_counts]
  simp

/-- C2 counterexample: in `rowInfFloor` every required field converts to
a value, yet the validator marks the row invalid — the `inf` value of
the non-required `floor` column makes its converter raise, and that
error invalidates the row.  This refutes the claim that validity depends
only on required-field conversions and that a conversion failure in a
non-required column never invalidates the row. -/
theorem claim_C2_counterexample :
    (COLUMN_DEFS.all (fun cd =>
        !(decide (cd.name ∈ REQUIRED_FIELDS)) || (colConv rowInfFloor cd).isVal)) = true
    ∧ (validate_and_convert_row 2 rowInfFloor).is_valid = false := by
  constructor
  · decide
  · decide

/-- C2 (amended): the validator marks a row valid iff no column's
converter raised an exception and every required field's conversion
produced a value; a converter returning no value on a non-required
column does not invalidate the row, but a converter exception on any
column (required or not) does. -/
theorem claim_C2_validity (row_num : Nat) (row : RawRecord) :
    (validate_and_convert_row row_num row).is_valid = true
      ↔ ∀ cd ∈ COLUMN_DEFS,
          (colConv row cd).isExn = false
          ∧ (cd.name ∈ REQUIRED_FIELDS → (colConv row cd).isVal = true) :=
  is_valid_iff row_num row

/-- C2 witness: the amended characterization applied to a concrete fully
valid record. -/
theorem claim_C2_witness :
    (validate_and_convert_row 2 rowValid).is_valid = true :=
  (claim_C2_validity 2 rowValid).mpr (by decide)

/-- C3 counterexample: on the input `inf` the integer and bounded
small-integer converters let an `OverflowError` escape to the caller
(`int(float("inf"))`; `OverflowError` is not in the `except` clause),
refuting the claim that every converter returns a typed value or no
value and never raises. -/
theorem claim_C3_counterexample :
    (_parse_int (("inf").toList)).isExn = true
    ∧ (_parse_tinyint (("inf").toList)).isExn = true := by
  constructor
  · decide
  · decide

/-- C3 (amended): the float and truncated-string converters never let an
exception escape; the integer and bounded small-integer converters let
one escape exactly when the normalized input parses to an infinite
float, and on every other input they return a typed value or no
value. -/
theorem claim_C3_exceptions (s : Str) :
    (_parse_float s).isExn = false
    ∧ (strTrunc 50 s).isExn = false
    ∧ (_parse_int s).isExn = parsesToInf s
    ∧ (_parse_tinyint s).isExn = parsesToInf s :=
  ⟨parse_floatExn s, strTruncExn 50 s, parse_intExn s, parse_tinyintExn s⟩

/-- C4: a row that fails validation is recovered locally — the rejected
counter is incremented, the row is sampled when fewer than 20 samples
are held, nothing else in the state changes — and the loader continues
with the remaining rows from the next input position; the batch run is
never aborted. -/
theorem claim_C4_row_rejection_continues (sinkOk : Nat → Bool) (n : Nat)
    (r : RawRecord) (rest : List (Nat × RawRecord)) (idx : Nat) (st : ImportState)
    (h : (validate_and_convert_row n r).is_valid = false) :
    insert_rowsAux sinkOk ((n, r) :: rest) idx st
      = insert_rowsAux sinkOk rest (idx + 1)
          { st with rejected := st.rejected + 1
                  , rejected_samples :=
                      if st.rejected_samples.length < 20 then
                        st.rejected_samples ++ [mkSample n r]
                      else st.rejected_samples } := by
  rw [insert_rowsAux]
  congr 1
  unfold insertStep
  simp [h]

/-- C4 witness: the recovery equation at a concrete invalid row (the
empty record) followed by a concrete valid row. -/
theorem claim_C4_witness :
    insert_rowsAux (fun _ => true) [(4, ([] : RawRecord)), (2, rowValid)] 0
        ⟨0, 0, [], []⟩
      = insert_rowsAux (fun _ => true) [(2, rowValid)] 1
          { (⟨0, 0, [], []⟩ : ImportState) with
              rejected := 0 + 1
            , rejected_samples :=
                if ([] : List RejectSample).length < 20 then
                  ([] : List RejectSample) ++ [mkSample 4 []]
                else ([] : List RejectSample) } :=
  claim_C4_row_rejection_continues (fun _ => true) 4 [] [(2, rowValid)] 0
    ⟨0, 0, [], []⟩ (by decide)

/-- C5 counterexample: the truncated-string converter maps the
whitespace-only input consisting of one space to that same string, not
to no value, refuting the claim that every one of the four converters
returns no value on whitespace-only input. -/
theorem claim_C5_counterexample :
    strTrunc 50 ([' ']) = .val ([' ']) ∧ strTrunc 50 ([' ']) ≠ .nul := by
  constructor
  · decide
  · decide

/-- C5 (amended): on empty or all-whitespace input the three numeric
converters return no value; the truncated-string converter returns no
value on empty input, and — because the row validator strips each cell
before converting — the stripped form of an all-whitespace cell also
converts to no value. -/
theorem claim_C5_whitespace (s : Str) (h : ∀ c ∈ s, isPySpace c = true) :
    _parse_float s = .nul ∧ _parse_int s = .nul ∧ _parse_tinyint s = .nul
    ∧ strTrunc 50 (pyStrip s) = .nul := by
  have hnil : pyStrip s = [] := pyStrip_eq_nil_of_space s h
  by_cases h1 : s = []
  · subst h1; decide
  · refine ⟨?_, ?_, ?_, ?_⟩ <;>
      simp [_parse_float, _parse_int, _parse_tinyint, strTrunc, h1, hnil]

/-- C5 witness: the amended statement at the two-space input. -/
theorem claim_C5_witness :
    _parse_float ([' ', ' ']) = .nul ∧ _parse_int ([' ', ' ']) = .nul
    ∧ _parse_tinyint ([' ', ' ']) = .nul
    ∧ strTrunc 50 (pyStrip ([' ', ' '])) = .nul :=
  claim_C5_whitespace [' ', ' '] (by decide)

/-- C6: the bounded small-integer converter is the integer converter
followed by the range check: a converted integer is returned iff it lies
in [0, 255], otherwise no value (no value and exception outcomes pass
through unchanged); in particular 255 is kept while 256 and -1 give no
value. -/
theorem claim_C6_tinyint_refines_int :
    (∀ s : Str, _parse_tinyint s =
      match _parse_int s with
      | .val i => if 0 ≤ i ∧ i ≤ 255 then .val i else .nul
      | .nul => .nul
      | .exn m => .exn m)
    ∧ _parse_tinyint (("255").toList) = .val 255
    ∧ _parse_tinyint (("256").toList) = .nul
    ∧ _parse_tinyint (("-1").toList) = .nul := by
  refine ⟨?_, by decide, by decide, by decide⟩
  intro s
  by_cases h1 : s = []
  · subst h1; decide
  · by_cases h2 : pyStrip s = []
    · simp [_parse_tinyint, _parse_int, h1, h2]
    · cases hm : pyfloat (commaToPeriod (pyStrip s)) with
      | none => simp [_parse_tinyint, _parse_int, h1, h2, hm]
      | some f =>
        cases f <;> simp [_parse_tinyint, _parse_int, h1, h2, hm]

/-- C7: the integer converter strips whitespace (stripping first changes
nothing), maps inputs that strip to empty to no value, replaces commas
by periods and parses the result as a float, truncating the finite
result toward zero (floor for a nonnegative value, ceiling for a
nonpositive one), and maps any parse failure to no value; in particular
the inputs 5,00 and 5.9 give 5 and -5.9 gives -5. -/
theorem claim_C7_int_converter :
    (∀ s : Str, _parse_int (pyStrip s) = _parse_int s)
    ∧ (∀ s : Str, pyStrip s = [] → _parse_int s = .nul)
    ∧ (∀ (s : Str) (n e : Int),
        pyfloat (commaToPeriod (pyStrip s)) = some (.finite n e)
          → _parse_int s = .val (floatTrunc n e))
    ∧ (∀ s : Str, pyfloat (commaToPeriod (pyStrip s)) = none → _parse_int s = .nul)
    ∧ (∀ n e : Int, floatTrunc n e = if 0 ≤ n then ⌊finVal n e⌋ else ⌈finVal n e⌉)
    ∧ _parse_int (("5,00").toList) = .val 5
    ∧ _parse_int (("5.9").toList) = .val 5
    ∧ _parse_int (("-5.9").toList) = .val (-5) := by
  refine ⟨?_, ?_, ?_, ?_, floatTrunc_eq_floor_ceil, by decide, by decide, by decide⟩
  · intro s
    by_cases h1 : s = []
    · subst h1; rfl
    · by_cases h2 : pyStrip s = []
      · simp [_parse_int, h1, h2, pyStrip_nil]
      · simp [_parse_int, h1, h2, pyStrip_idem]
  · intro s hs
    by_cases h1 : s = []
    · subst h1; rfl
    · simp [_parse_int, h1, hs]
  · intro s n e hp
    by_cases h1 : s = []
    · rw [h1] at hp
      rw [show commaToPeriod (pyStrip ([] : Str)) = [] from rfl, pyfloat_nil] at hp
      cases hp
    · by_cases h2 : pyStrip s = []
      · rw [h2] at hp
        rw [show commaToPeriod ([] : Str) = [] from rfl, pyfloat_nil] at hp
        cases hp
      · simp [_parse_int, h1, h2, hp]
  · intro s hp
    by_cases h1 : s = []
    · subst h1; rfl
    · by_cases h2 : pyStrip s = []
      · simp [_parse_int, h1, h2]
      · simp [_parse_int, h1, h2, hp]

/-- C7 witness: the universally quantified parts of the integer
converter description, applied at concrete inputs. -/
theorem claim_C7_witness :
    _parse_int (("  ").toList) = .nul
    ∧ _parse_int (("7.5").toList) = .val (floatTrunc 75 (-1))
    ∧ _parse_int (("abc").toList) = .nul :=
  ⟨claim_C7_int_converter.2.1 (("  ").toList) (by decide),
   claim_C7_int_converter.2.2.1 (("7.5").toList) 75 (-1) (by decide),
   claim_C7_int_converter.2.2.2.1 (("abc").toList) (by decide)⟩

/-- C8: the float converter replaces every comma by a period before
parsing, so it cannot distinguish an input using decimal commas from the
same input using decimal periods: rewriting commas to periods never
changes its result, and in particular 3,14 and 3.14 both parse to the
same finite value 314 * 10^-2 = 157/50 = 3.14. -/
theorem claim_C8_float_comma_period :
    (∀ s : Str, _parse_float (commaToPeriod s) = _parse_float s)
    ∧ _parse_float (("3,14").toList) = .val (.finite 314 (-2))
    ∧ _parse_float (("3.14").toList) = .val (.finite 314 (-2))
    ∧ finVal 314 (-2) = 157 / 50 := by
  refine ⟨?_, by decide, by decide, ?_⟩
  · intro s
    by_cases h1 : s = []
    · subst h1; rfl
    · have hc1 : ¬commaToPeriod s = [] := fun hx => h1 ((commaToPeriod_nil_iff s).mp hx)
      by_cases h2 : pyStrip s = []
      · have h3 : pyStrip (commaToPeriod s) = [] := by
          rw [pyStrip_commaToPeriod, h2]; rfl
        simp [_parse_float, h1, h2, h3, hc1]
      · have h3 : ¬pyStrip (commaToPeriod s) = [] := by
          rw [pyStrip_commaToPeriod]
          exact fun hx => h2 ((commaToPeriod_nil_iff _).mp hx)
        have h4 : commaToPeriod (pyStrip (commaToPeriod s)) = commaToPeriod (pyStrip s) := by
          rw [pyStrip_commaToPeriod, commaToPeriod_idem]
        simp only [_parse_float, h1, h2, h3, hc1, if_false]
        rw [h4]
  · show (314 : ℚ) * (10 : ℚ) ^ (-2 : Int) = 157 / 50
    norm_num

/-- C9: the reject-sample list the loader returns is exactly the first
20 validation-rejected rows of the batch, in input order — so it never
holds more than 20 entries however many rows were rejected. -/
theorem claim_C9_sample_cap_and_order (sinkOk : Nat → Bool)
    (rows : List (Nat × RawRecord)) :
    (insert_rows sinkOk rows).rejected_samples = (rejectSamples rows).take 20
    ∧ (insert_rows sinkOk rows).rejected_samples.length ≤ 20 := by
  have h : (insert_rows sinkOk rows).rejected_samples = (rejectSamples rows).take 20 := by
    unfold insert_rows
    have h0 := insert_rowsAux_samples sinkOk rows 0 ⟨0, 0, [], []⟩
    simpa using h0
  refine ⟨h, ?_⟩
  rw [h, List.length_take]
  exact min_le_left _ _

/-- C10: the raw values the validator records are the whitespace-trimmed
cell contents — every recorded raw value is a fixed point of stripping,
both in the validator output and in every reject sample the loader
retains, so leading or trailing whitespace of the input cell never
appears there. -/
theorem claim_C10_raw_values_trimmed :
    (∀ (row_num : Nat) (row : RawRecord),
      ∀ p ∈ (validate_and_convert_row row_num row).raw_values, pyStrip p.2 = p.2)
    ∧ (∀ (sinkOk : Nat → Bool) (rows : List (Nat × RawRecord)),
        ∀ smp ∈ (insert_rows sinkOk rows).rejected_samples,
          ∀ p ∈ smp.raw_values, pyStrip p.2 = p.2) := by
  refine ⟨raw_values_stripped, ?_⟩
  intro sinkOk rows smp hsmp p hp
  have hchar : (insert_rows sinkOk rows).rejected_samples = (rejectSamples rows).take 20 := by
    unfold insert_rows
    have h0 := insert_rowsAux_samples sinkOk rows 0 ⟨0, 0, [], []⟩
    simpa using h0
  rw [hchar] at hsmp
  have hsmp2 : smp ∈ rejectSamples rows := List.take_subset _ _ hsmp
  unfold rejectSamples at hsmp2
  rw [List.mem_filterMap] at hsmp2
  obtain ⟨e, _, he⟩ := hsmp2
  by_cases hv : (validate_and_convert_row e.1 e.2).is_valid
  · rw [if_pos hv] at he
    cases he
  · rw [if_neg hv] at he
    injection he with he'
    rw [← he'] at hp
    exact raw_values_stripped e.1 e.2 p hp

/-- C10 witness: in the record whose price cell is padded with spaces,
the recorded raw value for price is the trimmed text. -/
theorem claim_C10_witness :
    pyStrip ((("price").toList, ("12").toList) : Str × Str).2
      = ((("price").toList, ("12").toList) : Str × Str).2 :=
  claim_C10_raw_values_trimmed.1 2 rowWs (("price").toList, ("12").toList) (by decide)

end OlxImport
